import Mathlib

/-!
# Verification of the `rqt_joint_trajectory_controller` session core

A shallow embedding, in Lean 4, of the session/binding core of
`rqt_joint_trajectory_controller/joint_trajectory_controller.py`:

* the pure helpers `_resolve_controller_ns` and `_jtc_joint_names`;
* the feedback ingestion path `_state_cb` / `_on_joint_state_change` /
  `_update_single_cmd_cb`;
* the periodic command synthesis `_update_cmd_cb`;
* the discovery cycle `_update_jtc_list` / `_running_jtc_info` with the
  lazily primed joint-limit cache `_robot_joint_limits`;
* the monitor/control session state machine spread over `_on_jtc_enabled`,
  `_on_jtc_change`, `_load_jtc` and `_unload_jtc`.

Python dictionaries are embedded as association lists with distinct keys
(`dictLookup` / `dictInsert` / `dictUpdate` mirror `d[k]`, `d[k] = v` and
`d.update(...)`), Python floats as rationals (the numeric claims use only
exactly representable values and exact arithmetic), and fallible code —
statements whose uncaught Python exception (`KeyError`, `IndexError`,
`StopIteration`, `ZeroDivisionError`, `ValueError` from `max([])`) aborts the
enclosing Qt callback — as `Option`-valued functions, `none` meaning the
callback aborted at that statement with no further effect.
-/

/-! ## Association lists standing for Python dicts -/

/-- `d[k]` for a Python dict embedded as an association list. -/
def dictLookup {α : Type} (t : List (String × α)) (k : String) : Option α :=
  match t with
  | [] => none
  | (k2, v) :: rest => if k = k2 then some v else dictLookup rest k

/-- `d[k] = v`: replace the value in place when the key exists (a Python dict
keeps the key's original position), otherwise append the new pair. -/
def dictInsert {α : Type} (t : List (String × α)) (k : String) (v : α) :
    List (String × α) :=
  if (dictLookup t k).isSome then
    t.map (fun kv => if kv.1 = k then (k, v) else kv)
  else
    t ++ [(k, v)]

/-- `old.update(new)`: fold the new dict's pairs, in order, into the old one. -/
def dictUpdate {α : Type} (old new : List (String × α)) : List (String × α) :=
  new.foldl (fun acc kv => dictInsert acc kv.1 kv.2) old

/-! ## Data model -/

/-- One value of `self._robot_joint_limits`: the record the external
joint-limits lookup returns for one joint. -/
structure JointLimitsRec where
  min_position : ℚ
  max_position : ℚ
  max_velocity : ℚ
deriving DecidableEq, Repr

/-- One inner dict of `self._joint_pos`: per joint, the optional keys
`"position"` (absent until the first feedback message) and `"command"`
(absent until the user first edits the joint). -/
structure JointEntry where
  position : Option ℚ
  command : Option ℚ
deriving DecidableEq, Repr

/-- One element of the controller listing service's reply, as the plugin
reads it: name, type string, lifecycle state, and the ordered
`required_state_interfaces` identifier list. -/
structure ControllerInfo where
  name : String
  ctype : String
  state : String
  required_state_interfaces : List String
deriving DecidableEq, Repr

/-! ## `_jtc_joint_names` -/

/-- Python's `s.split("/")` on the character level: split at every `'/'`,
keeping empty pieces (`"".split("/") == [""]`, `"a//b".split("/") ==
["a","","b"]`). -/
def splitChars : List Char → List (List Char)
  | [] => [[]]
  | c :: rest =>
    if c = '/' then [] :: splitChars rest
    else
      match splitChars rest with
      | [] => [[c]]
      | g :: gs => (c :: g) :: gs

/-- `"/".join(interface.split("/")[:-1])`: an interface identifier with its
trailing interface-type segment stripped. -/
def interface_joint_name (interface : String) : String :=
  String.intercalate "/" (((splitChars interface.data).map String.mk).dropLast)

/-- `_jtc_joint_names`: walk `required_state_interfaces`, strip each
identifier's last `/`-segment, and append the result to the output unless it
is already there. -/
def jtc_joint_names (interfaces : List String) : List String :=
  interfaces.foldl
    (fun joint_names interface =>
      let name := interface_joint_name interface
      if name ∈ joint_names then joint_names else joint_names ++ [name])
    []

/-! ## `_resolve_controller_ns` -/

/-- The characters before the last `'/'` of the list, or the whole list when
it has no `'/'`: `cm_ns.rsplit("/", 1)[0]` on the character level. -/
def beforeLastSlash (l : List Char) : List Char :=
  match l.reverse.dropWhile (fun c => c ≠ '/') with
  | [] => l
  | _ :: tail => tail.reverse

/-- `cm_ns.rsplit("/", 1)[0]`. -/
def rsplitOnceHead (s : String) : String := ⟨beforeLastSlash s.data⟩

/-- `_resolve_controller_ns`: `none` models the `assert controller_name`
failing on an empty controller name; otherwise drop the last `/`-segment of
`cm_ns`, append `"/"` unless the parent is exactly `"/"`, and append the
controller name. -/
def resolve_controller_ns (cm_ns controller_name : String) : Option String :=
  if controller_name = "" then none
  else
    let ns := rsplitOnceHead cm_ns
    let ns := if ns ≠ "/" then ns ++ "/" else ns
    some (ns ++ controller_name)

/-! ## Spec-side reading of `_jtc_joint_names`'s dedup -/

/-- Drop from `l` every element that is in `seen` or has already occurred
earlier in `l` — the spec's "deduplicated, order of first appearance
preserved", started from an already-seen set. -/
def dedupFirstAux (seen : List String) : List String → List String
  | [] => []
  | x :: xs =>
    if x ∈ seen then dedupFirstAux seen xs
    else x :: dedupFirstAux (x :: seen) xs

/-- Deduplicate a list keeping, for each value, its first occurrence. -/
def dedupFirst (l : List String) : List String := dedupFirstAux [] l

/-! ## Feedback ingestion: `_state_cb` and `_on_joint_state_change` -/

/-- The indexed loop of `_state_cb`: pair `msg.joint_names[i]` with
`msg.feedback.positions[i]` for `i in range(len(msg.joint_names))`, building
the `current_pos` dict.  Running out of positions is the `IndexError` that
aborts the callback (`none`); extra positions are never read. -/
def stateCbGo (acc : List (String × ℚ)) :
    List String → List ℚ → Option (List (String × ℚ))
  | [], _ => some acc
  | _ :: _, [] => none
  | n :: ns, p :: ps => stateCbGo (dictInsert acc n p) ns ps

/-- `_state_cb`: build the joint-name → position dict from the report's
parallel arrays.  `some cp` is the dict handed to `jointStateChanged.emit`;
`none` means the callback raised and nothing was emitted. -/
def state_cb (joint_names : List String) (positions : List ℚ) :
    Option (List (String × ℚ)) :=
  stateCbGo [] joint_names positions

/-- `self._joint_pos[name]["position"] = v` for one joint: rewrite the inner
dict of the matching key, leaving its `"command"` key alone. -/
def setPos (t : List (String × JointEntry)) (n : String) (p : ℚ) :
    List (String × JointEntry) :=
  t.map (fun kv => if kv.1 = n then (kv.1, { kv.2 with position := some p }) else kv)

/-- The loop of `_on_joint_state_change`: write each reported position into
`self._joint_pos`.  A name with no entry raises `KeyError`
(`self._joint_pos[name]` fails) and aborts the loop, keeping the writes made
so far. -/
def applyPositions (t : List (String × JointEntry)) :
    List (String × ℚ) → List (String × JointEntry)
  | [] => t
  | (n, p) :: rest =>
    if (dictLookup t n).isSome then applyPositions (setPos t n p) rest else t

/-- `_on_joint_state_change`: `assert len(current_pos) == len(self._joint_pos)`
(an `AssertionError` aborts before any write), then the write loop. -/
def on_joint_state_change (t : List (String × JointEntry))
    (current_pos : List (String × ℚ)) : List (String × JointEntry) :=
  if current_pos.length = t.length then applyPositions t current_pos else t

/-- One full feedback delivery: the table `self._joint_pos` after `_state_cb`
ran on the report and, when it emitted, `_on_joint_state_change` consumed the
emission.  An abort anywhere leaves the table as the loop left it. -/
def feedback_step (t : List (String × JointEntry))
    (joint_names : List String) (positions : List ℚ) :
    List (String × JointEntry) :=
  match state_cb joint_names positions with
  | none => t
  | some cp => on_joint_state_change t cp

/-! ## Command synthesis: `_update_cmd_cb` -/

/-- `self._cmd_pub_freq = 10.0`. -/
def cmd_pub_freq : ℚ := 10

/-- `self._min_traj_dur = 5.0 / self._cmd_pub_freq`. -/
def min_traj_dur : ℚ := 5 / cmd_pub_freq

/-- One iteration of `_update_cmd_cb`'s loop: read the joint's position
(`KeyError` when the joint or its `"position"` key is missing), fall back from
the missing `"command"` key to the position, read the joint's `max_velocity`
(`KeyError` when the limits dict lacks the joint, `ZeroDivisionError` when it
is zero), and return the per-joint duration together with the commanded
position. -/
def synthJoint (joint_pos : List (String × JointEntry))
    (limits : List (String × JointLimitsRec)) (name : String) :
    Option (ℚ × ℚ) :=
  (dictLookup joint_pos name).bind fun entry =>
    entry.position.bind fun pos =>
      let cmd := entry.command.getD pos
      (dictLookup limits name).bind fun lim =>
        if lim.max_velocity = 0 then none
        else some (max (|cmd - pos| / lim.max_velocity) min_traj_dur, cmd)

/-- The whole loop of `_update_cmd_cb`, producing the `dur` list and
`point.positions` in joint order; the first aborting iteration aborts the
callback. -/
def synthLoop (joint_pos : List (String × JointEntry))
    (limits : List (String × JointLimitsRec)) :
    List String → Option (List ℚ × List ℚ)
  | [] => some ([], [])
  | n :: rest =>
    match synthJoint joint_pos limits n with
    | none => none
    | some (d, c) =>
      match synthLoop joint_pos limits rest with
      | none => none
      | some (ds, cs) => some (d :: ds, c :: cs)

/-- `_update_cmd_cb`: `some (joint_names, positions, duration)` is the single
published `JointTrajectory` message — its joint name list, its one point's
positions, and that point's `time_from_start` of
`max(dur) / self._speed_scale` seconds.  `none` means the callback raised
(missing position or limit, `max([])` on a joint-less controller, or a zero
divisor) and published nothing. -/
def update_cmd_cb (joint_pos : List (String × JointEntry))
    (limits : List (String × JointLimitsRec)) (speed_scale : ℚ)
    (joint_names : List String) : Option (List String × List ℚ × ℚ) :=
  (synthLoop joint_pos limits joint_names).bind fun dp =>
    dp.1.max?.bind fun m =>
      if speed_scale = 0 then none
      else some (joint_names, dp.2, m / speed_scale)

/-- `_update_single_cmd_cb`: `self._joint_pos[name]["command"] = val`.  A
`valueChanged` signal only exists for joints with an entry, so the write is
total on the entry when present and a `KeyError` (modelled as leaving the
table unchanged being unreachable) cannot occur; we embed the dict write
directly. -/
def update_single_cmd_cb (t : List (String × JointEntry)) (name : String)
    (val : ℚ) : List (String × JointEntry) :=
  if (dictLookup t name).isSome then
    t.map (fun kv => if kv.1 = name then (kv.1, { kv.2 with command := some val }) else kv)
  else t

/-! ## Spec-side reading of the synthesis formulas -/

/-- The spec's per-joint commanded value: "`cmd = runtime_state[joint].command`
if present, else `cmd = runtime_state[joint].position`". -/
def spec_cmd_value (joint_pos : List (String × JointEntry)) (name : String) : ℚ :=
  match dictLookup joint_pos name with
  | none => 0
  | some entry =>
    match entry.command with
    | some c => c
    | none => entry.position.getD 0

/-- The joint's current position, per the spec's `runtime_state[joint].position`. -/
def spec_position (joint_pos : List (String × JointEntry)) (name : String) : ℚ :=
  ((dictLookup joint_pos name).bind JointEntry.position).getD 0

/-- The joint's `max_velocity` from the limits mapping. -/
def spec_max_velocity (limits : List (String × JointLimitsRec)) (name : String) : ℚ :=
  ((dictLookup limits name).map JointLimitsRec.max_velocity).getD 0

/-- The spec's per-joint duration:
`max(|cmd - position| / max_velocity, 5 / command_rate)`. -/
def spec_joint_duration (joint_pos : List (String × JointEntry))
    (limits : List (String × JointLimitsRec)) (name : String) : ℚ :=
  max (|spec_cmd_value joint_pos name - spec_position joint_pos name| /
        spec_max_velocity limits name)
    min_traj_dur

/-! ## Controller discovery: `_running_jtc_info` and `_update_jtc_list` -/

/-- `leadsWith pat l`: `l` starts with `pat`. -/
def leadsWith : List Char → List Char → Bool
  | [], _ => true
  | _ :: _, [] => false
  | a :: as, b :: bs => a = b && leadsWith as bs

/-- `occursIn pat l`: `pat` occurs contiguously somewhere in `l`. -/
def occursIn (pat : List Char) : List Char → Bool
  | [] => pat.isEmpty
  | c :: rest => leadsWith pat (c :: rest) || occursIn pat rest

/-- Python's `pat in s` on strings. -/
def strContains (s pat : String) : Bool := occursIn pat.data s.data

/-- Modelled from the spec: `filter_by_type` lives in the package's `utils`
module, which is not among the sources; the spec says discovery "filters to
those whose type string contains a configured marker substring", and the call
site passes `"JointTrajectoryController"` with `match_substring=True`. -/
def filter_by_type (ctrls : List ControllerInfo) (marker : String) :
    List ControllerInfo :=
  ctrls.filter (fun c => strContains c.ctype marker)

/-- Modelled from the spec: `filter_by_state` lives in the package's `utils`
module, which is not among the sources; the spec says discovery keeps the
controllers "whose state equals \"active\"", and the call site passes
`"active"`. -/
def filter_by_state (ctrls : List ControllerInfo) (st : String) :
    List ControllerInfo :=
  ctrls.filter (fun c => c.state = st)

/-- `_running_jtc_info`: the listing reply filtered by type marker then by
the `"active"` state. -/
def running_jtc_info (controller_list : List ControllerInfo) :
    List ControllerInfo :=
  filter_by_state (filter_by_type controller_list "JointTrajectoryController") "active"

/-- Python's `sorted` on the name list.  `sorted` is a stable comparison sort
and so is insertion sort, and equal strings are indistinguishable, so the two
agree on every input. -/
def sortedStrings (l : List String) : List String :=
  l.insertionSort (· ≤ ·)

/-- `_update_jtc_list`.  Inputs: `get_joint_limits` — the external
joint-limit lookup (the spec treats the retrieval mechanism as an external
service; it lives in `joint_limits_urdf`, outside the specified core) —
`controller_list?` — `none` when `self._list_controllers` is unset (no
manager selected, the combo is cleared), otherwise the listing reply — and
the current `self._robot_joint_limits` cache.  Output: the sorted name list
handed to `update_combo` and the new cache. -/
def update_jtc_list
    (get_joint_limits : List String → List (String × JointLimitsRec))
    (controller_list? : Option (List ControllerInfo))
    (robot_joint_limits : List (String × JointLimitsRec)) :
    List String × List (String × JointLimitsRec) :=
  match controller_list? with
  | none => ([], robot_joint_limits)
  | some controller_list =>
    let running_jtc := running_jtc_info controller_list
    let robot_joint_limits :=
      if running_jtc ≠ [] ∧ robot_joint_limits = [] then
        running_jtc.foldl
          (fun acc jtc_info =>
            dictUpdate acc
              (get_joint_limits (jtc_joint_names jtc_info.required_state_interfaces)))
          []
      else robot_joint_limits
    let valid_jtc :=
      if robot_joint_limits ≠ [] then
        running_jtc.filter (fun jtc_info =>
          (jtc_joint_names jtc_info.required_state_interfaces).all
            (fun name => (dictLookup robot_joint_limits name).isSome))
      else []
    (sortedStrings (valid_jtc.map ControllerInfo.name), robot_joint_limits)

/-! ## The session state machine

The Qt-visible state of the plugin that the session logic touches: the
selection, the per-session joint data, the four handles torn down on unload
(`jointStateChanged` connection, state subscription, command publisher,
executor thread), the enable button's checked flag, and the two session
timers.  The discovery timers and widgets are view-only and not modelled.
-/

structure PState where
  jtc_name : String
  joint_names : List String
  joint_pos : List (String × JointEntry)
  robot_joint_limits : List (String × JointLimitsRec)
  state_sub : Bool
  cmd_pub : Bool
  exec_live : Bool
  connected : Bool
  checked : Bool
  cmd_timer : Bool
  act_timer : Bool
deriving DecidableEq, Repr

/-- The plugin's state after `__init__`: nothing selected, no session
resources, the enable button unchecked, both session timers stopped. -/
def initState : PState :=
  { jtc_name := "", joint_names := [], joint_pos := [], robot_joint_limits := [],
    state_sub := false, cmd_pub := false, exec_live := false, connected := false,
    checked := false, cmd_timer := false, act_timer := false }

/-!
`setCheckedF` is Qt's `QAbstractButton.setChecked`: a no-op when the flag
already has the wanted value, otherwise it flips the flag and synchronously
emits `toggled`, i.e. runs `_on_jtc_enabled` (`onEnabledF`).  `onEnabledF` is
`_on_jtc_enabled`: with no controller selected it calls `setChecked(False)`
and returns (timers untouched); otherwise it stops one session timer and
starts the other (the joint-widget and speed-scaling `setEnabled` calls are
view-only).  The two recurse through each other; the recursion depth of a
real call is at most three, so the fuel of `6` used everywhere below
reproduces the Python behaviour exactly — `setCheckedF_closed` and
`onEnabledF_closed` prove the fuel-independent closed forms.
-/

mutual

def setCheckedF : Nat → PState → Bool → PState
  | 0, s, _ => s
  | n + 1, s, b => if s.checked = b then s else onEnabledF n { s with checked := b } b

def onEnabledF : Nat → PState → Bool → PState
  | 0, s, _ => s
  | n + 1, s, val =>
    if s.jtc_name = "" then setCheckedF n s false
    else if val then { s with act_timer := false, cmd_timer := true }
    else { s with cmd_timer := false, act_timer := true }

end

/-- `_unload_jtc`: disconnect `jointStateChanged`, destroy the subscription,
the publisher and the executor (each guarded, here absorbed into setting the
flags false), clear the joint widgets (view-only), reset `_joint_names` and
`_joint_pos`, and finally `enable_button.setChecked(False)` — which, when the
button was checked, synchronously runs `_on_jtc_enabled(False)` with
`self._jtc_name` still holding the previous selection. -/
def unload_jtc (s : PState) : PState :=
  let s1 : PState :=
    { s with connected := false, state_sub := false, cmd_pub := false,
             exec_live := false, joint_names := [], joint_pos := [] }
  setCheckedF 6 s1 false

/-- `_load_jtc`: `next(_jtc_joint_names(x) for x in running_jtc if x.name ==
self._jtc_name)` raises `StopIteration` when the selection is absent from the
snapshot — the callback aborts with no state change (`none`-like: the input
state is returned, since the raise precedes every assignment).  Otherwise:
set `_joint_names`, create the empty per-joint dicts, build the joint widgets
(view-only; limits are only read, inside `try/except`), call
`_on_jtc_enabled(False)` directly, then create the subscription, the
publisher, the signal connection and the executor thread. -/
def load_jtc_found (jtc_info : ControllerInfo) (s : PState) : PState :=
  let names := jtc_joint_names jtc_info.required_state_interfaces
  let s1 : PState :=
    { s with joint_names := names,
             joint_pos := names.foldl (fun t n => dictInsert t n ⟨none, none⟩) s.joint_pos }
  let s2 := onEnabledF 6 s1 false
  { s2 with state_sub := true, cmd_pub := true, connected := true, exec_live := true }

def load_jtc (running_jtc : List ControllerInfo) (s : PState) : PState :=
  match running_jtc.find? (fun x => x.name = s.jtc_name) with
  | none => s
  | some jtc_info => load_jtc_found jtc_info s

/-- `_on_jtc_change`: unload the previous session, record the new selection,
and — when it is non-empty — load it against the given discovery snapshot. -/
def on_jtc_change (running_jtc : List ControllerInfo) (s : PState)
    (jtc_name : String) : PState :=
  let s1 := unload_jtc s
  let s2 : PState := { s1 with jtc_name := jtc_name }
  if jtc_name = "" then s2 else load_jtc running_jtc s2

/-- `_on_joint_state_change` as it runs in the plugin: the queued
`jointStateChanged` signal only reaches the handler while the connection
made in `_load_jtc` is up. -/
def on_feedback (s : PState) (current_pos : List (String × ℚ)) : PState :=
  if s.connected then
    { s with joint_pos := on_joint_state_change s.joint_pos current_pos }
  else s

/-! ## Event sequences for the mode-controller invariant -/

/-- The enable/disable/bind/unbind events of the claim: the user checking or
unchecking the enable button (Qt runs `_on_jtc_enabled` through the button's
`toggled` signal), and the combo selection changing to a controller of the
current snapshot (`bind`) or to nothing (`unbind`). -/
inductive Event where
  | enable : Event
  | disable : Event
  | bind : ControllerInfo → Event
  | unbind : Event

def mcStep (s : PState) : Event → PState
  | .enable => setCheckedF 6 s true
  | .disable => setCheckedF 6 s false
  | .bind info => on_jtc_change [info] s info.name
  | .unbind => on_jtc_change [] s ""

def runEvents (evs : List Event) : PState := evs.foldl mcStep initState

/-! ## Concrete fixtures used by witnesses and counterexamples -/

/-- A representative active joint-trajectory controller. -/
def arm_info : ControllerInfo :=
  { name := "arm_ctl", ctype := "position_controllers/JointTrajectoryController",
    state := "active",
    required_state_interfaces := ["j1/position", "j1/velocity", "j2/position"] }

/-- A discovery snapshot: two active JTCs, one foreign-type controller, one
inactive JTC. -/
def demo_controllers : List ControllerInfo :=
  [{ name := "b_ctl", ctype := "position_controllers/JointTrajectoryController",
     state := "active", required_state_interfaces := ["j1/position"] },
   { name := "a_ctl", ctype := "position_controllers/JointTrajectoryController",
     state := "active", required_state_interfaces := ["j2/position"] },
   { name := "x_ctl", ctype := "velocity_controllers/SomethingElse",
     state := "active", required_state_interfaces := ["j3/position"] },
   { name := "c_ctl", ctype := "position_controllers/JointTrajectoryController",
     state := "inactive", required_state_interfaces := ["j4/position"] }]

/-- An external limits lookup that resolves nothing (e.g. no URDF loaded). -/
def glimNone : List String → List (String × JointLimitsRec) := fun _ => []

/-- An external limits lookup that resolves every requested joint. -/
def glimUnit : List String → List (String × JointLimitsRec) :=
  fun names => names.map (fun n => (n, { min_position := -1, max_position := 1, max_velocity := 1 }))

/-- A live bound session on `arm_ctl`'s joint `j1`, in monitor mode. -/
def demo_session : PState :=
  { jtc_name := "arm_ctl", joint_names := ["j1"],
    joint_pos := [("j1", { position := some 0, command := none })],
    robot_joint_limits := [("j1", { min_position := -1, max_position := 1, max_velocity := 1 })],
    state_sub := true, cmd_pub := true, exec_live := true, connected := true,
    checked := false, cmd_timer := false, act_timer := true }

/-! # Theorems -/

/-! ## Helper lemmas -/
theorem dedupFirstAux_congr (s1 s2 : List String)
    (h : ∀ x, x ∈ s1 ↔ x ∈ s2) (l : List String) :
    dedupFirstAux s1 l = dedupFirstAux s2 l := by
  induction l generalizing s1 s2 with
  | nil => rfl
  | cons x xs ih =>
    by_cases hx : x ∈ s1
    · rw [dedupFirstAux, dedupFirstAux, if_pos hx, if_pos ((h x).mp hx)]
      exact ih s1 s2 h
    · rw [dedupFirstAux, dedupFirstAux, if_neg hx, if_neg (fun c => hx ((h x).mpr c))]
      refine congrArg _ (ih _ _ ?_)
      intro y
      simp only [List.mem_cons]
      exact or_congr Iff.rfl (h y)

theorem jtc_foldl_dedup (l : List String) :
    ∀ acc : List String,
      l.foldl (fun acc n => if n ∈ acc then acc else acc ++ [n]) acc =
        acc ++ dedupFirstAux acc l := by
  induction l with
  | nil => intro acc; simp [dedupFirstAux]
  | cons x xs ih =>
    intro acc
    by_cases hx : x ∈ acc
    · simp only [List.foldl_cons, if_pos hx, dedupFirstAux, ih]
    · simp only [List.foldl_cons, if_neg hx, dedupFirstAux, ih]
      rw [dedupFirstAux_congr (acc ++ [x]) (x :: acc)
        (by intro y; simp [List.mem_append, List.mem_cons, or_comm])]
      simp

/-- `_jtc_joint_names` is: strip every identifier, then deduplicate keeping
first occurrences. -/
theorem jtc_joint_names_eq_dedup (interfaces : List String) :
    jtc_joint_names interfaces =
      dedupFirst (interfaces.map interface_joint_name) := by
  have h := jtc_foldl_dedup (interfaces.map interface_joint_name) []
  rw [List.foldl_map] at h
  simpa [jtc_joint_names, dedupFirst] using h

theorem setCheckedF_succ (n : Nat) (s : PState) (b : Bool) :
    setCheckedF (n + 1) s b =
      if s.checked = b then s else onEnabledF n { s with checked := b } b := by
  rw [setCheckedF]

theorem onEnabledF_succ (n : Nat) (s : PState) (val : Bool) :
    onEnabledF (n + 1) s val =
      if s.jtc_name = "" then setCheckedF n s false
      else if val then { s with act_timer := false, cmd_timer := true }
      else { s with cmd_timer := false, act_timer := true } := by
  rw [onEnabledF]

/-- Closed form of `setChecked` at any sufficient fuel: when nothing is
selected a `setChecked(True)` bounces straight back to unchecked (the
re-entrant `toggled` handler finds the button already unchecked and stops),
and with a selection the flag and the two timers move together. -/
theorem setCheckedF_closed (n : Nat) (s : PState) (b : Bool) :
    setCheckedF (n + 5) s b =
      if s.checked = b then s
      else if s.jtc_name = "" then { s with checked := false }
      else if b then { s with checked := b, act_timer := false, cmd_timer := true }
      else { s with checked := b, cmd_timer := false, act_timer := true } := by
  obtain ⟨nm, jn, jp, lim, ss, cp, ex, co, ch, ct, att⟩ := s
  show setCheckedF ((n + 4) + 1) _ b = _
  rw [setCheckedF_succ]
  by_cases h1 : ch = b
  · simp [h1]
  · rw [if_neg h1, if_neg h1]
    show onEnabledF ((n + 3) + 1) _ b = _
    rw [onEnabledF_succ]
    by_cases h2 : nm = ""
    · subst h2
      rw [if_pos rfl, if_pos rfl]
      show setCheckedF ((n + 2) + 1) _ false = _
      rw [setCheckedF_succ]
      cases b with
      | false => rw [if_pos rfl]
      | true =>
        rw [if_neg (show ¬(true = false) from by decide)]
        show onEnabledF ((n + 1) + 1) _ false = _
        rw [onEnabledF_succ]
        rw [if_pos rfl]
        show setCheckedF (n + 1) _ false = _
        rw [setCheckedF_succ]
        rw [if_pos rfl]
    · rw [if_neg h2, if_neg h2]

/-- Closed form of `_on_jtc_enabled` at any sufficient fuel. -/
theorem onEnabledF_closed (n : Nat) (s : PState) (val : Bool) :
    onEnabledF (n + 5) s val =
      if s.jtc_name = "" then { s with checked := false }
      else if val then { s with act_timer := false, cmd_timer := true }
      else { s with cmd_timer := false, act_timer := true } := by
  obtain ⟨nm, jn, jp, lim, ss, cp, ex, co, ch, ct, att⟩ := s
  show onEnabledF ((n + 4) + 1) _ val = _
  rw [onEnabledF_succ]
  by_cases h2 : nm = ""
  · subst h2
    rw [if_pos rfl, if_pos rfl]
    show setCheckedF ((n + 3) + 1) _ false = _
    rw [setCheckedF_succ]
    cases ch with
    | false => rw [if_pos rfl]
    | true =>
      rw [if_neg (show ¬(true = false) from by decide)]
      show onEnabledF ((n + 2) + 1) _ false = _
      rw [onEnabledF_succ]
      rw [if_pos rfl]
      show setCheckedF ((n + 1) + 1) _ false = _
      rw [setCheckedF_succ]
      rw [if_pos rfl]
  · rw [if_neg h2, if_neg h2]


/-- Closed form of `_unload_jtc`: the session resources and joint data are
cleared; the final `setChecked(False)` additionally, when the button was
checked and a controller is still recorded as selected, stops the command
timer and starts the widget-refresh timer. -/
theorem unload_jtc_eq (s : PState) : unload_jtc s =
    if s.checked = false then
      { s with connected := false, state_sub := false, cmd_pub := false,
               exec_live := false, joint_names := [], joint_pos := [] }
    else if s.jtc_name = "" then
      { s with connected := false, state_sub := false, cmd_pub := false,
               exec_live := false, joint_names := [], joint_pos := [],
               checked := false }
    else
      { s with connected := false, state_sub := false, cmd_pub := false,
               exec_live := false, joint_names := [], joint_pos := [],
               checked := false, cmd_timer := false, act_timer := true } := by
  unfold unload_jtc
  rw [show (6 : Nat) = 1 + 5 from rfl, setCheckedF_closed]
  by_cases h1 : s.checked = false
  · rw [if_pos h1, if_pos h1]
  · rw [if_neg h1, if_neg h1]
    by_cases h2 : s.jtc_name = ""
    · rw [if_pos h2, if_pos h2]
    · rw [if_neg h2, if_neg h2]
      rw [if_neg (show ¬(false = true) from by decide)]

/-- The button is always unchecked after `_unload_jtc`. -/
theorem unload_jtc_checked (s : PState) : (unload_jtc s).checked = false := by
  rw [unload_jtc_eq]
  split_ifs with h1 h2
  · exact h1
  · rfl
  · rfl

/-- Closed form of a successful `_load_jtc` body (selection found in the
snapshot, non-empty selection). -/
theorem load_jtc_found_eq (info : ControllerInfo) (s : PState)
    (hname : s.jtc_name ≠ "") :
    load_jtc_found info s =
      { s with
        joint_names := jtc_joint_names info.required_state_interfaces
        joint_pos := (jtc_joint_names info.required_state_interfaces).foldl
            (fun t n => dictInsert t n ⟨none, none⟩) s.joint_pos
        cmd_timer := false, act_timer := true
        state_sub := true, cmd_pub := true, connected := true
        exec_live := true } := by
  simp only [load_jtc_found]
  rw [show (6 : Nat) = 1 + 5 from rfl, onEnabledF_closed, if_neg hname,
    if_neg (show ¬(false = true) from by decide)]

/-- `_on_jtc_change` to the empty selection: unload, record no selection. -/
theorem on_jtc_change_unbind_eq (running : List ControllerInfo) (s : PState) :
    on_jtc_change running s "" = { unload_jtc s with jtc_name := "" } := by
  simp [on_jtc_change]

/-- `_on_jtc_change` to a selection absent from the snapshot: the
`StopIteration` aborts `_load_jtc` before any assignment, so the state is the
unloaded one with only the selection name updated. -/
theorem on_jtc_change_absent_eq (running : List ControllerInfo) (s : PState)
    (c : String) (hc : c ≠ "")
    (habs : running.find? (fun x => x.name = c) = none) :
    on_jtc_change running s c = { unload_jtc s with jtc_name := c } := by
  simp only [on_jtc_change, if_neg hc]
  unfold load_jtc
  have h2 : running.find?
      (fun x => x.name = ({ unload_jtc s with jtc_name := c } : PState).jtc_name) = none := habs
  rw [h2]

/-- `_on_jtc_change` to a selection found in the snapshot. -/
theorem on_jtc_change_bind_eq (running : List ControllerInfo) (s : PState)
    (c : String) (info : ControllerInfo) (hc : c ≠ "")
    (hfind : running.find? (fun x => x.name = c) = some info) :
    on_jtc_change running s c =
      { unload_jtc s with
        jtc_name := c
        joint_names := jtc_joint_names info.required_state_interfaces
        joint_pos := (jtc_joint_names info.required_state_interfaces).foldl
            (fun t n => dictInsert t n ⟨none, none⟩) (unload_jtc s).joint_pos
        cmd_timer := false, act_timer := true
        state_sub := true, cmd_pub := true, connected := true
        exec_live := true } := by
  simp only [on_jtc_change, if_neg hc]
  unfold load_jtc
  have h2 : running.find?
      (fun x => x.name = ({ unload_jtc s with jtc_name := c } : PState).jtc_name) = some info := hfind
  rw [h2]
  exact load_jtc_found_eq info _ hc

/-- The inductive invariant: the feedback subscription exists exactly while a
controller name is selected; while bound, the command timer mirrors the
enable button and the refresh timer its negation; while unbound, the button
is unchecked and the command timer stopped (the refresh timer may be either). -/
def ModeInv (s : PState) : Prop :=
  (s.state_sub = true ↔ s.jtc_name ≠ "") ∧
  (s.state_sub = true → s.cmd_timer = s.checked ∧ s.act_timer = !s.checked) ∧
  (s.state_sub = false → s.checked = false ∧ s.cmd_timer = false)

theorem modeInv_init : ModeInv initState :=
  ⟨by simp [initState], by simp [initState], fun _ => ⟨rfl, rfl⟩⟩

theorem state_sub_false (s : PState) (hlink : s.state_sub = true ↔ s.jtc_name ≠ "")
    (h2 : s.jtc_name = "") : s.state_sub = false := by
  cases hb : s.state_sub with
  | false => rfl
  | true => exact absurd h2 (hlink.mp hb)

theorem modeInv_setChecked (s : PState) (b : Bool) (h : ModeInv s) :
    ModeInv (setCheckedF 6 s b) := by
  obtain ⟨hlink, hbnd, hunb⟩ := h
  rw [show (6 : Nat) = 1 + 5 from rfl, setCheckedF_closed]
  by_cases h1 : s.checked = b
  · rw [if_pos h1]; exact ⟨hlink, hbnd, hunb⟩
  · rw [if_neg h1]
    by_cases h2 : s.jtc_name = ""
    · rw [if_pos h2]
      refine ⟨hlink, ?_, ?_⟩
      · intro hs; exact absurd h2 (hlink.mp hs)
      · intro hs; exact ⟨rfl, (hunb hs).2⟩
    · rw [if_neg h2]
      cases b with
      | true =>
        rw [if_pos rfl]
        refine ⟨hlink, fun _ => ⟨rfl, rfl⟩, ?_⟩
        intro hs
        have hs' : s.state_sub = false := hs
        rw [hlink.mpr h2] at hs'
        exact absurd hs' (show ¬(true = false) from by decide)
      | false =>
        rw [if_neg (show ¬(false = true) from by decide)]
        refine ⟨hlink, fun _ => ⟨rfl, rfl⟩, ?_⟩
        intro hs
        have hs' : s.state_sub = false := hs
        rw [hlink.mpr h2] at hs'
        exact absurd hs' (show ¬(true = false) from by decide)

theorem modeInv_step (s : PState) (e : Event) (h : ModeInv s) :
    ModeInv (mcStep s e) := by
  have hlink := h.1
  have hbnd := h.2.1
  have hunb := h.2.2
  have hcmd_unbound : s.cmd_timer = false ∨ s.cmd_timer = s.checked := by
    cases hb : s.state_sub with
    | false => exact Or.inl (hunb hb).2
    | true => exact Or.inr (hbnd hb).1
  cases e with
  | enable => exact modeInv_setChecked s true h
  | disable => exact modeInv_setChecked s false h
  | unbind =>
    show ModeInv (on_jtc_change [] s "")
    rw [on_jtc_change_unbind_eq, unload_jtc_eq]
    split_ifs with h1 h2
    · -- button already unchecked: timers untouched
      refine ⟨by simp, fun hs => absurd hs (show ¬(false = true) from by decide), ?_⟩
      intro _
      refine ⟨h1, ?_⟩
      rcases hcmd_unbound with hc | hc
      · exact hc
      · exact hc.trans h1
    · -- checked, nothing selected: impossible to have cmd running; clears flag
      refine ⟨by simp, fun hs => absurd hs (show ¬(false = true) from by decide), ?_⟩
      intro _
      refine ⟨rfl, ?_⟩
      have hsub := state_sub_false s hlink h2
      exact (hunb hsub).2
    · -- checked with a selection: disable path, cmd stopped
      exact ⟨by simp, fun hs => absurd hs (show ¬(false = true) from by decide),
        fun _ => ⟨rfl, rfl⟩⟩
  | bind info =>
    show ModeInv (on_jtc_change [info] s info.name)
    by_cases hc : info.name = ""
    · rw [hc, on_jtc_change_unbind_eq, unload_jtc_eq]
      split_ifs with h1 h2
      · refine ⟨by simp, fun hs => absurd hs (show ¬(false = true) from by decide), ?_⟩
        intro _
        refine ⟨h1, ?_⟩
        rcases hcmd_unbound with hcu | hcu
        · exact hcu
        · exact hcu.trans h1
      · refine ⟨by simp, fun hs => absurd hs (show ¬(false = true) from by decide), ?_⟩
        intro _
        exact ⟨rfl, (hunb (state_sub_false s hlink h2)).2⟩
      · exact ⟨by simp, fun hs => absurd hs (show ¬(false = true) from by decide),
          fun _ => ⟨rfl, rfl⟩⟩
    · rw [on_jtc_change_bind_eq [info] s info.name info hc
        (List.find?_cons_of_pos _ (by simp))]
      refine ⟨by simp [hc], ?_, fun hs => absurd hs (show ¬(true = false) from by decide)⟩
      intro _
      constructor
      · exact (unload_jtc_checked s).symm
      · rw [unload_jtc_checked s]; rfl

theorem modeInv_run (evs : List Event) : ModeInv (runEvents evs) := by
  suffices h : ∀ s, ModeInv s → ModeInv (evs.foldl mcStep s) from h initState modeInv_init
  induction evs with
  | nil => intro s hs; exact hs
  | cons e rest ih => intro s hs; exact ih _ (modeInv_step s e hs)

/-- C1 (amended): for every sequence of enable/disable/bind/unbind events,
the command-publication timer and the widget-refresh timer are never both
active; whenever a session is bound (the feedback subscription exists)
exactly one of them is active; whenever no session is bound the command
timer is inactive — but the refresh timer is not stopped on unbind, so
after an unbind it stays active. -/
theorem c1_mode_timers (evs : List Event) :
    ¬((runEvents evs).cmd_timer = true ∧ (runEvents evs).act_timer = true) ∧
    ((runEvents evs).state_sub = true →
      (runEvents evs).cmd_timer ≠ (runEvents evs).act_timer) ∧
    ((runEvents evs).state_sub = false → (runEvents evs).cmd_timer = false) := by
  obtain ⟨hlink, hbnd, hunb⟩ := modeInv_run evs
  set s := runEvents evs
  refine ⟨?_, ?_, ?_⟩
  · rintro ⟨hc, ha⟩
    cases hb : s.state_sub with
    | false => rw [(hunb hb).2] at hc; cases hc
    | true =>
      obtain ⟨h1, h2⟩ := hbnd hb
      rw [hc] at h1
      rw [ha] at h2
      rw [← h1] at h2
      cases h2
  · intro hb
    obtain ⟨h1, h2⟩ := hbnd hb
    rw [h1, h2]
    cases s.checked <;> decide
  · intro hb
    exact (hunb hb).2

/-- C1 counterexample: after binding a controller and then unbinding it, no
session is bound yet the feedback-driven widget-refresh timer is still
active, contradicting the claim's "when no session is bound neither is
active". -/
theorem c1_cex :
    (runEvents [Event.bind arm_info, Event.unbind]).state_sub = false ∧
    (runEvents [Event.bind arm_info, Event.unbind]).act_timer = true := by
  constructor <;> rfl

/-- C5 (amended): selecting a controller absent from the latest discovery
snapshot refuses the bind with no new-session resources — the resulting
state has no runtime-state entries, no joint list, no subscription, no
publisher, no executor and no signal connection, and records the absent
selection — but the prior session is torn down first rather than left
intact. -/
theorem c5_bind_refused (running : List ControllerInfo) (s : PState)
    (c : String) (hc : c ≠ "") (habs : ∀ info ∈ running, info.name ≠ c) :
    (on_jtc_change running s c).jtc_name = c ∧
    (on_jtc_change running s c).joint_names = [] ∧
    (on_jtc_change running s c).joint_pos = [] ∧
    (on_jtc_change running s c).state_sub = false ∧
    (on_jtc_change running s c).cmd_pub = false ∧
    (on_jtc_change running s c).exec_live = false ∧
    (on_jtc_change running s c).connected = false := by
  have hfind : running.find? (fun x => x.name = c) = none := by
    rw [List.find?_eq_none]
    intro info hinfo
    simp [habs info hinfo]
  rw [on_jtc_change_absent_eq running s c hc hfind, unload_jtc_eq]
  split_ifs <;> exact ⟨rfl, rfl, rfl, rfl, rfl, rfl, rfl⟩

/-- C5 witness: a concrete refused bind. -/
theorem c5_bind_refused_w :
    (on_jtc_change [arm_info] demo_session "ghost_ctl").state_sub = false ∧
    (on_jtc_change [arm_info] demo_session "ghost_ctl").joint_pos = [] :=
  ⟨(c5_bind_refused [arm_info] demo_session "ghost_ctl" (by decide)
      (by intro info h; simp at h; subst h; decide)).2.2.2.1,
   (c5_bind_refused [arm_info] demo_session "ghost_ctl" (by decide)
      (by intro info h; simp at h; subst h; decide)).2.2.1⟩

/-- C5 counterexample: the prior session is not left intact by a refused
bind — its subscription, publisher and runtime state are destroyed. -/
theorem c5_cex :
    demo_session.state_sub = true ∧ demo_session.joint_pos ≠ [] ∧
    (on_jtc_change [arm_info] demo_session "ghost_ctl").state_sub = false ∧
    (on_jtc_change [arm_info] demo_session "ghost_ctl").joint_pos = [] := by
  refine ⟨rfl, by decide, rfl, rfl⟩

theorem unload_jtc_limits (s : PState) :
    (unload_jtc s).robot_joint_limits = s.robot_joint_limits := by
  rw [unload_jtc_eq]; split_ifs <;> rfl

theorem on_jtc_change_limits (running : List ControllerInfo) (s : PState)
    (c : String) :
    (on_jtc_change running s c).robot_joint_limits = s.robot_joint_limits := by
  by_cases hc : c = ""
  · subst hc
    rw [on_jtc_change_unbind_eq]
    exact unload_jtc_limits s
  · cases hfind : running.find? (fun x => x.name = c) with
    | none =>
      rw [on_jtc_change_absent_eq running s c hc hfind]
      exact unload_jtc_limits s
    | some info =>
      rw [on_jtc_change_bind_eq running s c info hc hfind]
      exact unload_jtc_limits s

/-- C4: once `_robot_joint_limits` is non-empty, a discovery cycle neither
calls the external lookup again (its output does not depend on the lookup at
all) nor changes the cache; and controller reselection never touches the
cache either. -/
theorem c4_cache_primed_once
    (glim glim2 : List String → List (String × JointLimitsRec))
    (ctrls : List ControllerInfo) (cache : List (String × JointLimitsRec))
    (h : cache ≠ []) :
    (update_jtc_list glim (some ctrls) cache).2 = cache ∧
    update_jtc_list glim (some ctrls) cache = update_jtc_list glim2 (some ctrls) cache ∧
    (∀ (running : List ControllerInfo) (s : PState) (c : String),
      (on_jtc_change running s c).robot_joint_limits = s.robot_joint_limits) := by
  have hno : ¬(running_jtc_info ctrls ≠ [] ∧ cache = []) := fun hco => h hco.2
  refine ⟨?_, ?_, fun running s c => on_jtc_change_limits running s c⟩ <;>
    simp only [update_jtc_list, if_neg hno]

/-- C4 witness at a concrete primed cache. -/
theorem c4_cache_primed_once_w :
    (update_jtc_list glimNone (some demo_controllers)
      [("j1", { min_position := -1, max_position := 1, max_velocity := 1 })]).2 =
      [("j1", { min_position := -1, max_position := 1, max_velocity := 1 })] :=
  (c4_cache_primed_once glimNone glimUnit demo_controllers _ (by decide)).1

theorem valid_sorted_mem (running : List ControllerInfo)
    (C : List (String × JointLimitsRec)) :
    (sortedStrings ((if C ≠ [] then
        running.filter (fun info =>
          (jtc_joint_names info.required_state_interfaces).all
            (fun n => (dictLookup C n).isSome))
      else []).map ControllerInfo.name)).Sorted (· ≤ ·) ∧
    ∀ name : String,
      name ∈ sortedStrings ((if C ≠ [] then
          running.filter (fun info =>
            (jtc_joint_names info.required_state_interfaces).all
              (fun n => (dictLookup C n).isSome))
        else []).map ControllerInfo.name) ↔
        (C ≠ [] ∧ ∃ info ∈ running, info.name = name ∧
          ∀ j ∈ jtc_joint_names info.required_state_interfaces,
            (dictLookup C j).isSome = true) := by
  constructor
  · exact List.sorted_insertionSort _ _
  · intro name
    rw [show sortedStrings ((if C ≠ [] then
          running.filter (fun info =>
            (jtc_joint_names info.required_state_interfaces).all
              (fun n => (dictLookup C n).isSome))
        else []).map ControllerInfo.name) =
        List.insertionSort (· ≤ ·) _ from rfl]
    rw [(List.perm_insertionSort (· ≤ ·) _).mem_iff]
    by_cases hC : C = []
    · simp [hC]
    · rw [if_pos hC]
      simp only [List.mem_map, List.mem_filter, List.all_eq_true]
      constructor
      · rintro ⟨info, ⟨hmem, hall⟩, hname⟩
        exact ⟨hC, info, hmem, hname, hall⟩
      · rintro ⟨-, info, hmem, hname, hall⟩
        exact ⟨info, ⟨hmem, hall⟩, hname⟩

/-- C3 (amended): a discovery cycle with a selected manager filters the
listing to controllers whose type contains `"JointTrajectoryController"` and
whose state is `"active"` (`running_jtc_info`); the published name list is
sorted; and a name appears in it exactly when the (possibly just primed)
joint-limit cache is non-empty and names an entry for every joint of that
controller.  In particular, when the cache ends up empty the output is the
empty list, not the full active set. -/
theorem c3_discovery (glim : List String → List (String × JointLimitsRec))
    (ctrls : List ControllerInfo) (cache : List (String × JointLimitsRec)) :
    ((update_jtc_list glim (some ctrls) cache).1.Sorted (· ≤ ·)) ∧
    ∀ name : String,
      name ∈ (update_jtc_list glim (some ctrls) cache).1 ↔
        ((update_jtc_list glim (some ctrls) cache).2 ≠ [] ∧
          ∃ info ∈ running_jtc_info ctrls, info.name = name ∧
            ∀ j ∈ jtc_joint_names info.required_state_interfaces,
              (dictLookup (update_jtc_list glim (some ctrls) cache).2 j).isSome = true) :=
  valid_sorted_mem (running_jtc_info ctrls)
    (if running_jtc_info ctrls ≠ [] ∧ cache = [] then
      (running_jtc_info ctrls).foldl
        (fun acc (jtc_info : ControllerInfo) =>
          dictUpdate acc (glim (jtc_joint_names jtc_info.required_state_interfaces)))
        []
    else cache)

/-- C3 counterexample: with an empty cache and an external lookup that
resolves nothing, one controller is active yet the discovery output is
empty — not the full active set the claim promises. -/
theorem c3_cex :
    (update_jtc_list glimNone (some demo_controllers) []).1 = [] ∧
    (running_jtc_info demo_controllers).map ControllerInfo.name = ["b_ctl", "a_ctl"] := by
  constructor <;> rfl

theorem synthJoint_none_of_missing (jp : List (String × JointEntry))
    (lims : List (String × JointLimitsRec)) (n : String)
    (h : (dictLookup jp n).bind JointEntry.position = none) :
    synthJoint jp lims n = none := by
  unfold synthJoint
  cases hl : dictLookup jp n with
  | none => rfl
  | some e =>
    rw [hl] at h
    rw [Option.some_bind] at h ⊢
    rw [h]
    rfl

theorem synthLoop_none (jp : List (String × JointEntry))
    (lims : List (String × JointLimitsRec)) (names : List String) (n : String)
    (hn : n ∈ names) (hnone : synthJoint jp lims n = none) :
    synthLoop jp lims names = none := by
  induction names with
  | nil => cases hn
  | cons m rest ih =>
    rcases List.mem_cons.mp hn with h | h
    · subst h
      unfold synthLoop
      rw [hnone]
    · unfold synthLoop
      cases hm : synthJoint jp lims m with
      | none => rfl
      | some dc =>
        rw [ih h]

/-- C9: if any joint of the session lacks a position (no feedback yet), the
command-synthesis callback raises before reaching `publish`, so no trajectory
message at all is emitted that cycle. -/
theorem c9_skip_publish (jp : List (String × JointEntry))
    (lims : List (String × JointLimitsRec)) (speed_scale : ℚ)
    (names : List String)
    (h : ∃ n ∈ names, (dictLookup jp n).bind JointEntry.position = none) :
    update_cmd_cb jp lims speed_scale names = none := by
  obtain ⟨n, hn, hmiss⟩ := h
  unfold update_cmd_cb
  rw [synthLoop_none jp lims names n hn (synthJoint_none_of_missing jp lims n hmiss)]
  rfl

/-- C9 witness: one joint bound, command set, no feedback yet — nothing is
published. -/
theorem c9_skip_publish_w :
    update_cmd_cb [("j1", { position := none, command := some 1 })]
      [("j1", { min_position := -1, max_position := 1, max_velocity := 1 })]
      1 ["j1"] = none :=
  c9_skip_publish _ _ 1 ["j1"] ⟨"j1", by decide, rfl⟩

theorem synthJoint_spec (jp : List (String × JointEntry))
    (lims : List (String × JointLimitsRec)) (n : String)
    (e : JointEntry) (p : ℚ) (lim : JointLimitsRec)
    (he : dictLookup jp n = some e) (hp : e.position = some p)
    (hl : dictLookup lims n = some lim) (hv : lim.max_velocity ≠ 0) :
    synthJoint jp lims n =
      some (spec_joint_duration jp lims n, spec_cmd_value jp n) := by
  unfold synthJoint spec_joint_duration spec_cmd_value spec_position spec_max_velocity
  simp only [he, hl, hp, Option.some_bind, Option.map_some, Option.getD_some]
  rw [if_neg hv]
  cases hc : e.command <;> simp [hc]

theorem synthLoop_spec (jp : List (String × JointEntry))
    (lims : List (String × JointLimitsRec)) (names : List String)
    (h : ∀ n ∈ names, ∃ e p lim, dictLookup jp n = some e ∧
      e.position = some p ∧ dictLookup lims n = some lim ∧
      lim.max_velocity ≠ 0) :
    synthLoop jp lims names =
      some (names.map (spec_joint_duration jp lims),
        names.map (spec_cmd_value jp)) := by
  induction names with
  | nil => rfl
  | cons m rest ih =>
    obtain ⟨e, p, lim, he, hp, hl, hv⟩ := h m (List.mem_cons_self m rest)
    unfold synthLoop
    rw [synthJoint_spec jp lims m e p lim he hp hl hv,
      ih (fun n hn => h n (List.mem_cons_of_mem m hn))]
    rfl

/-- C2 (amended): while bound with a position known for every joint — and
provided the session is non-degenerate (at least one joint, a limits entry
with non-zero `max_velocity` per joint, non-zero speed scale; the code checks
none of these and raises instead) — one cycle of `_update_cmd_cb` publishes
exactly one message: the session's joint names, per joint its commanded value
(`command` if set, else the current position), and the single duration
`max(per-joint max(|cmd - pos| / max_velocity, 5 / command_rate)) /
speed_scale`. -/
theorem c2_synthesis (jp : List (String × JointEntry))
    (lims : List (String × JointLimitsRec)) (speed_scale : ℚ)
    (names : List String) (hne : names ≠ []) (hss : speed_scale ≠ 0)
    (h : ∀ n ∈ names, ∃ e p lim, dictLookup jp n = some e ∧
      e.position = some p ∧ dictLookup lims n = some lim ∧
      lim.max_velocity ≠ 0) :
    update_cmd_cb jp lims speed_scale names =
      some (names, names.map (spec_cmd_value jp),
        ((names.map (spec_joint_duration jp lims)).max?.getD 0) / speed_scale) := by
  unfold update_cmd_cb
  rw [synthLoop_spec jp lims names h, Option.some_bind]
  cases names with
  | nil => exact absurd rfl hne
  | cons a tl =>
    rw [show ((a :: tl).map (spec_joint_duration jp lims)).max? =
        some ((tl.map (spec_joint_duration jp lims)).foldl max
          (spec_joint_duration jp lims a)) from rfl]
    rw [Option.some_bind, if_neg hss]
    rfl

/-- C2 witness: `position = 0`, `command = 1`, `max_velocity = 2`,
`min_trajectory_duration = 0.5`; `speed_scale = 1` publishes duration `0.5`,
`speed_scale = 0.5` publishes duration `1`. -/
theorem c2_synthesis_w :
    update_cmd_cb [("j1", { position := some 0, command := some 1 })]
      [("j1", { min_position := -10, max_position := 10, max_velocity := 2 })]
      1 ["j1"] = some (["j1"], [1], 1/2) ∧
    update_cmd_cb [("j1", { position := some 0, command := some 1 })]
      [("j1", { min_position := -10, max_position := 10, max_velocity := 2 })]
      (1/2) ["j1"] = some (["j1"], [1], 1) := by
  constructor
  · rw [c2_synthesis [("j1", { position := some 0, command := some 1 })]
      [("j1", { min_position := -10, max_position := 10, max_velocity := 2 })]
      1 ["j1"] (by decide) (by norm_num)
      (by
        intro n hn
        simp only [List.mem_singleton] at hn
        subst hn
        exact ⟨{ position := some 0, command := some 1 }, 0,
          { min_position := -10, max_position := 10, max_velocity := 2 },
          rfl, rfl, rfl, by norm_num⟩)]
    norm_num [spec_cmd_value, spec_joint_duration, spec_position,
      spec_max_velocity, dictLookup, min_traj_dur, cmd_pub_freq, List.max?]
  · rw [c2_synthesis [("j1", { position := some 0, command := some 1 })]
      [("j1", { min_position := -10, max_position := 10, max_velocity := 2 })]
      (1/2) ["j1"] (by decide) (by norm_num)
      (by
        intro n hn
        simp only [List.mem_singleton] at hn
        subst hn
        exact ⟨{ position := some 0, command := some 1 }, 0,
          { min_position := -10, max_position := 10, max_velocity := 2 },
          rfl, rfl, rfl, by norm_num⟩)]
    norm_num [spec_cmd_value, spec_joint_duration, spec_position,
      spec_max_velocity, dictLookup, min_traj_dur, cmd_pub_freq, List.max?]

/-- C2 counterexample: a session whose runtime-state table has a position for
its (single) joint, yet the cycle publishes nothing, because the joint's
`max_velocity` is `0` and the per-joint division raises `ZeroDivisionError`
before `publish` — the claim as stated promises exactly one message. -/
theorem c2_cex :
    ((dictLookup [("j1", ({ position := some 0, command := some 1 } : JointEntry))]
        "j1").bind JointEntry.position).isSome = true ∧
    update_cmd_cb [("j1", { position := some 0, command := some 1 })]
      [("j1", { min_position := -10, max_position := 10, max_velocity := 0 })]
      1 ["j1"] = none := by
  constructor <;> rfl

theorem stateCbGo_short (names : List String) :
    ∀ (positions : List ℚ) (acc : List (String × ℚ)),
      positions.length < names.length → stateCbGo acc names positions = none := by
  induction names with
  | nil => intro ps acc h; cases h
  | cons n ns ih =>
    intro ps acc h
    cases ps with
    | nil => rfl
    | cons p rest =>
      exact ih rest (dictInsert acc n p) (Nat.lt_of_succ_lt_succ h)

/-- C6 (amended): a feedback report with fewer positions than joint names
raises `IndexError` while building the name→position dict, so the cycle's
update is discarded and the runtime-state table is untouched.  (A report
with *more* positions than names is not rejected: the extra positions are
ignored — see the counterexample.) -/
theorem c6_short_feedback (t : List (String × JointEntry))
    (names : List String) (positions : List ℚ)
    (h : positions.length < names.length) :
    feedback_step t names positions = t := by
  unfold feedback_step state_cb
  rw [stateCbGo_short names positions [] h]

/-- C6 witness: two names, one position — table unchanged. -/
theorem c6_short_feedback_w :
    feedback_step [("j1", { position := some 0, command := none })]
      ["j1", "j2"] [1] = [("j1", { position := some 0, command := none })] :=
  c6_short_feedback _ ["j1", "j2"] [1] (by decide)

/-- C6 counterexample: a report whose arrays have different lengths (one
name, two positions) is *not* rejected — the extra position is ignored and
the named joint's position is overwritten, so the pre- and post-states
differ although the claim demands equality for every mismatched report. -/
theorem c6_cex :
    (["j1"] : List String).length ≠ ([(1 : ℚ), 2] : List ℚ).length ∧
    feedback_step [("j1", { position := some 0, command := none })] ["j1"] [1, 2] =
      [("j1", { position := some 1, command := none })] ∧
    ([("j1", ({ position := some 1, command := none } : JointEntry))] ≠
      [("j1", { position := some 0, command := none })]) := by
  refine ⟨by decide, rfl, by decide⟩

theorem dictLookup_cons {α : Type} (k m : String) (v : α)
    (rest : List (String × α)) :
    dictLookup ((k, v) :: rest) m =
      if m = k then some v else dictLookup rest m := rfl

theorem dictLookup_cons_self {α : Type} (k : String) (v : α)
    (rest : List (String × α)) : dictLookup ((k, v) :: rest) k = some v := by
  rw [dictLookup_cons, if_pos rfl]

theorem dictLookup_cons_ne {α : Type} (k m : String) (v : α)
    (rest : List (String × α)) (h : m ≠ k) :
    dictLookup ((k, v) :: rest) m = dictLookup rest m := by
  rw [dictLookup_cons, if_neg h]

theorem setPos_cons (k : String) (v : JointEntry)
    (rest : List (String × JointEntry)) (n : String) (p : ℚ) :
    setPos ((k, v) :: rest) n p =
      (if k = n then (k, { v with position := some p }) else (k, v)) ::
        setPos rest n p := rfl

theorem dictLookup_setPos_self (t : List (String × JointEntry)) (n : String)
    (p : ℚ) :
    dictLookup (setPos t n p) n =
      (dictLookup t n).map (fun e => { e with position := some p }) := by
  induction t with
  | nil => rfl
  | cons kv rest ih =>
    obtain ⟨k, v⟩ := kv
    rw [setPos_cons]
    by_cases hk : k = n
    · subst hk
      rw [if_pos rfl, dictLookup_cons_self, dictLookup_cons_self]
      rfl
    · rw [if_neg hk, dictLookup_cons_ne _ _ _ _ (fun h2 => hk h2.symm),
        dictLookup_cons_ne _ _ _ _ (fun h2 => hk h2.symm), ih]

theorem dictLookup_setPos_ne (t : List (String × JointEntry)) (n m : String)
    (p : ℚ) (h : m ≠ n) :
    dictLookup (setPos t n p) m = dictLookup t m := by
  induction t with
  | nil => rfl
  | cons kv rest ih =>
    obtain ⟨k, v⟩ := kv
    rw [setPos_cons]
    by_cases hk : k = n
    · subst hk
      rw [if_pos rfl, dictLookup_cons_ne _ _ _ _ h, dictLookup_cons_ne _ _ _ _ h, ih]
    · rw [if_neg hk]
      by_cases hm : m = k
      · subst hm
        rw [dictLookup_cons_self, dictLookup_cons_self]
      · rw [dictLookup_cons_ne _ _ _ _ hm, dictLookup_cons_ne _ _ _ _ hm, ih]

theorem setPos_command (t : List (String × JointEntry)) (n m : String) (p : ℚ) :
    (dictLookup (setPos t n p) m).map JointEntry.command =
      (dictLookup t m).map JointEntry.command := by
  by_cases h : m = n
  · subst h
    rw [dictLookup_setPos_self]
    cases dictLookup t m <;> rfl
  · rw [dictLookup_setPos_ne t n m p h]

theorem setPos_isSome (t : List (String × JointEntry)) (n m : String) (p : ℚ) :
    (dictLookup (setPos t n p) m).isSome = (dictLookup t m).isSome := by
  by_cases h : m = n
  · subst h
    rw [dictLookup_setPos_self]
    cases dictLookup t m <;> rfl
  · rw [dictLookup_setPos_ne t n m p h]

theorem applyPositions_command (cp : List (String × ℚ)) :
    ∀ (t : List (String × JointEntry)) (m : String),
      (dictLookup (applyPositions t cp) m).map JointEntry.command =
        (dictLookup t m).map JointEntry.command := by
  induction cp with
  | nil => intro t m; rfl
  | cons kv rest ih =>
    obtain ⟨n, p⟩ := kv
    intro t m
    unfold applyPositions
    by_cases hk : (dictLookup t n).isSome
    · rw [if_pos hk, ih (setPos t n p) m, setPos_command]
    · rw [if_neg hk]

theorem applyPositions_not_mem (cp : List (String × ℚ)) :
    ∀ (t : List (String × JointEntry)) (m : String),
      m ∉ cp.map Prod.fst →
      dictLookup (applyPositions t cp) m = dictLookup t m := by
  induction cp with
  | nil => intro t m _; rfl
  | cons kv rest ih =>
    obtain ⟨n, p⟩ := kv
    intro t m hm
    simp only [List.map_cons, List.mem_cons, not_or] at hm
    unfold applyPositions
    by_cases hk : (dictLookup t n).isSome
    · rw [if_pos hk, ih (setPos t n p) m hm.2, dictLookup_setPos_ne t n m p hm.1]
    · rw [if_neg hk]

theorem applyPositions_pos (cp : List (String × ℚ)) :
    ∀ (t : List (String × JointEntry)),
      (cp.map Prod.fst).Nodup →
      (∀ kv ∈ cp, (dictLookup t kv.1).isSome = true) →
      ∀ (n : String) (v : ℚ), dictLookup cp n = some v →
        (dictLookup (applyPositions t cp) n).map JointEntry.position =
          some (some v) := by
  induction cp with
  | nil => intro t _ _ n v hl; cases hl
  | cons kv rest ih =>
    obtain ⟨k, p⟩ := kv
    intro t hnd hknown n v hl
    have hks : (dictLookup t k).isSome = true := hknown (k, p) (List.mem_cons_self _ _)
    unfold applyPositions
    rw [if_pos hks]
    simp only [List.map_cons, List.nodup_cons] at hnd
    by_cases hnk : n = k
    · subst hnk
      have hv : v = p := by
        rw [dictLookup_cons_self] at hl
        exact (Option.some_injective _ hl).symm
      subst hv
      rw [applyPositions_not_mem rest (setPos t n v) n hnd.1,
        dictLookup_setPos_self]
      obtain ⟨e, he⟩ := Option.isSome_iff_exists.mp hks
      rw [he]
      rfl
    · have hl' : dictLookup rest n = some v := by
        rw [dictLookup_cons_ne _ _ _ _ hnk] at hl
        exact hl
      refine ih (setPos t k p) hnd.2 ?_ n v hl'
      intro kv hkv
      rw [setPos_isSome]
      exact hknown kv (List.mem_cons_of_mem _ hkv)

/-- C10: an accepted feedback update — delivered over a live connection,
with distinct keys (it is built as a dict), as many keys as the session's
runtime-state table, each key a known joint — writes only the `"position"`
field of the reported joints: every `"command"` value, the ordered joint-name
list and the joint-limits mapping are untouched, and each reported joint's
position becomes the reported value. -/
theorem c10_feedback_frame (s : PState) (cp : List (String × ℚ))
    (hc : s.connected = true) (hnd : (cp.map Prod.fst).Nodup)
    (hsize : cp.length = s.joint_pos.length)
    (hknown : ∀ kv ∈ cp, (dictLookup s.joint_pos kv.1).isSome = true) :
    (on_feedback s cp).joint_names = s.joint_names ∧
    (on_feedback s cp).robot_joint_limits = s.robot_joint_limits ∧
    (∀ m : String,
      (dictLookup (on_feedback s cp).joint_pos m).map JointEntry.command =
        (dictLookup s.joint_pos m).map JointEntry.command) ∧
    (∀ (n : String) (v : ℚ), dictLookup cp n = some v →
      (dictLookup (on_feedback s cp).joint_pos n).map JointEntry.position =
        some (some v)) := by
  unfold on_feedback
  rw [if_pos hc]
  unfold on_joint_state_change
  rw [if_pos hsize]
  exact ⟨rfl, rfl, fun m => applyPositions_command cp s.joint_pos m,
    fun n v hl => applyPositions_pos cp s.joint_pos hnd hknown n v hl⟩

/-- C10 witness: a live one-joint session accepting `{"j1": 2}` keeps the
pending command and takes the position. -/
theorem c10_feedback_frame_w :
    (dictLookup (on_feedback
        { demo_session with
          joint_pos := [("j1", { position := some 0, command := some 5 })] }
        [("j1", 2)]).joint_pos "j1").map JointEntry.position = some (some 2) :=
  (c10_feedback_frame
    { demo_session with
      joint_pos := [("j1", { position := some 0, command := some 5 })] }
    [("j1", 2)] rfl (by decide) rfl
    (by intro kv hkv; simp only [List.mem_singleton] at hkv; subst hkv; rfl)).2.2.2
    "j1" 2 rfl

/-- C7: namespace resolution drops the last `/`-segment of the
controller-manager namespace, appends a trailing `/` unless the parent is
exactly the root `/`, then appends the controller name — witnessed on the
spec's three examples — and fails (the `assert`) on an empty controller
name. -/
theorem c7_resolve_ns :
    resolve_controller_ns "/path/to/controller_manager" "foo" = some "/path/to/foo" ∧
    resolve_controller_ns "/" "foo" = some "/foo" ∧
    resolve_controller_ns "" "foo" = some "/foo" ∧
    ∀ cm_ns : String, resolve_controller_ns cm_ns "" = none := by
  refine ⟨by decide, by decide, by decide, ?_⟩
  intro cm_ns
  unfold resolve_controller_ns
  rw [if_pos rfl]

/-- C8: joint-name extraction maps each interface identifier to all but its
last `/`-segment re-joined with `/`, deduplicates, and keeps the order of
first appearance; in particular `["j1/position","j1/velocity","j2/position"]`
yields `["j1","j2"]`. -/
theorem c8_joint_names :
    (∀ interfaces : List String,
      jtc_joint_names interfaces =
        dedupFirst (interfaces.map interface_joint_name)) ∧
    jtc_joint_names ["j1/position", "j1/velocity", "j2/position"] = ["j1", "j2"] :=
  ⟨jtc_joint_names_eq_dedup, by decide⟩
